import Mathlib

/-!
A verification development for the KvickStore embedded key-value store
(`KvickStore.py`).  The Python source is shallowly embedded: Python values
are the inductive `PyVal`, the store's backing `dict` is an
insertion-ordered association list with string keys, and each store method
becomes a Lean function returning an `Except`-style result together with
the post-state.  Python strings are Lean `String`s; string primitives used
by the source (`startswith`, slicing, `split`) are modelled on the
underlying character lists.  Floating-point numbers are represented by
their canonical `repr` text (plus the special values `inf`/`-inf`/`nan`),
which is faithful for every operation the source performs on them
(printing and literal parsing); no theorem below depends on float
arithmetic.
-/

/-! ## Python string / number text primitives -/

/-- Python `str.startswith(pre)`: code-point prefix test. -/
def pyStartsWith (s pre : String) : Bool :=
  pre.data.isPrefixOf s.data

/-- Python slicing `s[n:]` (by code points). -/
def pyDropStr (s : String) (n : Nat) : String :=
  ⟨s.data.drop n⟩

/-- Python slicing `s[1:-1]` (by code points). -/
def pyInnerStr (s : String) : String :=
  ⟨(s.data.drop 1).dropLast⟩

/-- One splitting step of Python `str.split(sep)` for a non-empty `sep`:
`acc` holds the (reversed) chars of the current piece, `fuel` bounds the
recursion by the input length. -/
def pySplitGo (sep : List Char) : Nat → List Char → List Char → List (List Char)
  | 0, l, acc => [acc.reverse ++ l]
  | fuel + 1, l, acc =>
    if sep.isPrefixOf l then
      acc.reverse :: pySplitGo sep fuel (l.drop sep.length) []
    else
      match l with
      | [] => [acc.reverse]
      | c :: cs => pySplitGo sep fuel cs (c :: acc)

/-- Python `s.split(sep)` for a non-empty separator. -/
def pySplit (s sep : String) : List String :=
  (pySplitGo sep.data (s.data.length + 1) s.data []).map fun l => ⟨l⟩

/-- The decimal digit character for `n` (`n` is always `< 10` at use sites). -/
def digitChar (n : Nat) : Char :=
  if n = 0 then '0' else if n = 1 then '1' else if n = 2 then '2' else if n = 3 then '3'
  else if n = 4 then '4' else if n = 5 then '5' else if n = 6 then '6' else if n = 7 then '7'
  else if n = 8 then '8' else '9'

/-- Decimal digit characters of a natural number, most significant first
(`fuel`-bounded version of the usual div-10 recursion, so that it reduces
in the kernel). -/
def natChars : Nat → Nat → List Char
  | 0, _ => []
  | fuel + 1, n =>
    if n < 10 then [digitChar n]
    else natChars fuel (n / 10) ++ [digitChar (n % 10)]

/-- Python `str(n)` for a natural number. -/
def pyNatStr (n : Nat) : String :=
  ⟨natChars (n + 1) n⟩

/-- Python `str(i)` for an integer (decimal text, `-` sign for negatives). -/
def pyIntStr (i : Int) : String :=
  if i < 0 then "-" ++ pyNatStr i.natAbs else pyNatStr i.natAbs

/-- Accumulator-style decimal evaluation of a digit string. -/
def parseNatAcc : List Char → Nat → Nat
  | [], acc => acc
  | c :: cs, acc => parseNatAcc cs (acc * 10 + (c.toNat - 48))

/-- Shape of a Python integer literal as produced by `str`:
an optional `-` sign followed by a non-empty run of digits. -/
def isIntLitChars : List Char → Bool
  | [] => false
  | c :: cs =>
    if c = '-' then decide (cs ≠ []) && cs.all Char.isDigit
    else (c :: cs).all Char.isDigit

/-- Value of an integer literal (assumes `isIntLitChars`). -/
def parseIntChars (l : List Char) : Int :=
  if l.head? = some '-' then -(parseNatAcc l.tail 0 : Int)
  else (parseNatAcc l 0 : Int)

/-- Exponent part of a float literal: optional sign, non-empty digits. -/
def isExpPart (l : List Char) : Bool :=
  let body := if l.head? = some '+' || l.head? = some '-' then l.tail else l
  decide (body ≠ []) && body.all Char.isDigit

/-- Tail of a float literal after the leading digit run: a fractional
part and/or an exponent part. -/
def isFracExp : List Char → Bool
  | [] => false
  | c :: r2 =>
    if c = '.' then
      let d2 := r2.takeWhile Char.isDigit
      let r3 := r2.dropWhile Char.isDigit
      if d2 = [] then false
      else
        match r3 with
        | [] => true
        | c2 :: r4 => if c2 = 'e' then isExpPart r4 else false
    else if c = 'e' then isExpPart r2
    else false

/-- Shape of a finite Python float literal as produced by `repr`/`str`:
optional sign, digits, then a fractional part and/or an exponent part
(at least one of the two, so the shape is disjoint from integer literals). -/
def isFloatLitChars (l : List Char) : Bool :=
  let body := if l.head? = some '-' then l.tail else l
  let d1 := body.takeWhile Char.isDigit
  let r1 := body.dropWhile Char.isDigit
  if d1 = [] then false else isFracExp r1

/-! ## Python values -/

/-- A Python float, represented by its canonical `repr` text (`finite`)
or one of the special values.  Canonical `repr` is injective on finite
floats, so this representation is faithful for the printing and parsing
the source performs. -/
inductive PyFloat where
  | finite (r : String)
  | inf
  | ninf
  | nan
deriving DecidableEq

/-- The Python values the store manipulates: numbers, strings, booleans,
`None`, lists, tuples, and (string-keyed) dicts. -/
inductive PyVal where
  | vInt (n : Int)
  | vFloat (f : PyFloat)
  | vStr (s : String)
  | vBool (b : Bool)
  | vNone
  | vList (xs : List PyVal)
  | vTuple (xs : List PyVal)
  | vDict (kvs : List (String × PyVal))

/-- Python `str`/`repr` of a float. -/
def pyFloatStr : PyFloat → String
  | .finite r => r
  | .inf => "inf"
  | .ninf => "-inf"
  | .nan => "nan"

/-- Python `repr` of a string: quote choice and escaping for the
printable fragment (single quotes unless the string contains `'` but no
`"`; backslashes, the quote character, newlines and tabs are escaped). -/
def pyStrRepr (s : String) : String :=
  let sq : Char := Char.ofNat 39
  let dq : Char := Char.ofNat 34
  let q : Char := if s.data.contains sq && !(s.data.contains dq) then dq else sq
  let esc : Char → List Char := fun c =>
    if c = '\\' then ['\\', '\\']
    else if c = q then ['\\', q]
    else if c = '\n' then ['\\', 'n']
    else if c = '\t' then ['\\', 't']
    else [c]
  ⟨[q] ++ s.data.flatMap esc ++ [q]⟩

mutual

/-- Python `repr` of a value (`str` and `repr` agree on containers). -/
def pyRepr : PyVal → String
  | .vInt n => pyIntStr n
  | .vFloat f => pyFloatStr f
  | .vStr s => pyStrRepr s
  | .vBool b => if b then "True" else "False"
  | .vNone => "None"
  | .vList xs => "[" ++ pyReprList xs ++ "]"
  | .vTuple [x] => "(" ++ pyRepr x ++ ",)"
  | .vTuple xs => "(" ++ pyReprList xs ++ ")"
  | .vDict kvs => "\x7b" ++ pyReprKVs kvs ++ "\x7d"

/-- Comma-separated `repr`s of the elements of a list/tuple. -/
def pyReprList : List PyVal → String
  | [] => ""
  | [x] => pyRepr x
  | x :: xs => pyRepr x ++ ", " ++ pyReprList xs

/-- Comma-separated `key: value` renderings of dict items. -/
def pyReprKVs : List (String × PyVal) → String
  | [] => ""
  | [(k, v)] => pyStrRepr k ++ ": " ++ pyRepr v
  | (k, v) :: kvs => pyStrRepr k ++ ": " ++ pyRepr v ++ ", " ++ pyReprKVs kvs

end

/-- Python `str` of a value: the string itself for strings, `repr`
otherwise (the two agree on every other type stored here). -/
def pyStr : PyVal → String
  | .vStr s => s
  | v => pyRepr v

/-! ## Errors and the key codec -/

/-- The error kinds the source raises: `TypeError` (invalid key type)
and `ValueError` (reserved key format, unparseable literal / JSON). -/
inductive PyErr where
  | typeErr
  | valueErr
deriving DecidableEq

/-- `ast.literal_eval` on the literal texts reachable from encoded keys:
the constants `True`/`False`/`None` and decimal int/float literals as
produced by `str` on numbers.  Other texts (among them `nan`, `inf` and
`-inf`, which are names, not literals) raise `ValueError`. -/
def literalEvalChars (l : List Char) : Except PyErr PyVal :=
  if l = "True".data then .ok (.vBool true)
  else if l = "False".data then .ok (.vBool false)
  else if l = "None".data then .ok .vNone
  else if isIntLitChars l then .ok (.vInt (parseIntChars l))
  else if isFloatLitChars l then .ok (.vFloat (.finite ⟨l⟩))
  else .error .valueErr

/-- `ast.literal_eval` on a string. -/
def literal_eval (s : String) : Except PyErr PyVal :=
  literalEvalChars s.data

/-- `KvickStore._check_key_format_error`: a key must be an
`int`/`float`/`str`/`list`/`tuple` (booleans are `int` instances in
Python), and a string key must not start with the reserved `~num~`. -/
def check_key_format_error (key : PyVal) : Except PyErr Unit :=
  match key with
  | .vDict _ => .error .typeErr
  | .vNone => .error .typeErr
  | .vStr s => if pyStartsWith s "~num~" then .error .valueErr else .ok ()
  | _ => .ok ()

/-- `KvickStore._transform_key_forward`: lists/tuples render as their
`str` text, numbers (and booleans, which are `int` instances) get the
`~num~` prefix, strings pass through.  The final two cases are
unreachable behind `check_key_format_error`. -/
def transform_key_forward (key : PyVal) : String :=
  match key with
  | .vList _ => pyStr key
  | .vTuple _ => pyStr key
  | .vInt _ => "~num~" ++ pyStr key
  | .vFloat _ => "~num~" ++ pyStr key
  | .vBool _ => "~num~" ++ pyStr key
  | .vStr s => s
  | .vDict _ => pyStr key
  | .vNone => pyStr key

/-- `KvickStore._transform_key_backward`: strip the `~num~` prefix and
literal-parse the rest; strings opening with `(`/`[` are split on the
literal `", "` into a tuple/list of strings; anything else is returned
unchanged. -/
def transform_key_backward (key : String) : Except PyErr PyVal :=
  if pyStartsWith key "~num~" then literal_eval (pyDropStr key 5)
  else if pyStartsWith key "(" then
    .ok (.vTuple ((pySplit (pyInnerStr key) ", ").map PyVal.vStr))
  else if pyStartsWith key "[" then
    .ok (.vList ((pySplit (pyInnerStr key) ", ").map PyVal.vStr))
  else .ok (.vStr key)

/-! ## The backing dict

Python's `dict` (string keys, insertion-ordered) as an association list:
lookup and update address the first (and in every reachable state only)
entry with the given key; a fresh key is appended at the end. -/

/-- The store's in-memory mapping: encoded keys to values. -/
abbrev Db := List (String × PyVal)

/-- Python `db[k]`, as an option (`KeyError` becomes `none`). -/
def dictGet? (db : Db) (k : String) : Option PyVal :=
  match db with
  | [] => none
  | kv :: rest => if kv.1 = k then some kv.2 else dictGet? rest k

/-- Python `db[k] = v`: overwrite in place, or append a new entry. -/
def dictSet (db : Db) (k : String) (v : PyVal) : Db :=
  match db with
  | [] => [(k, v)]
  | kv :: rest => if kv.1 = k then (k, v) :: rest else kv :: dictSet rest k v

/-- Python `db.pop(k)`: the removed value and the remaining dict. -/
def dictPop (db : Db) (k : String) : Option (PyVal × Db) :=
  match db with
  | [] => none
  | kv :: rest =>
    if kv.1 = k then some (kv.2, rest)
    else
      match dictPop rest k with
      | some (v, rest2) => some (v, kv :: rest2)
      | none => none

/-! ## The JSON layer

The backing file is modelled at the token level: `json.dump` produces the
token stream of the serialized text and `json.load` parses a token
stream back.  (Lexing between bytes and tokens is the standard-library
part abstracted away; an empty file is the empty token stream.)  Tuples
have no JSON form: `json.dump` writes them as arrays, which is the
round-trip loss the source's own documentation notes for tuple values. -/

/-- JSON tokens. -/
inductive JTok where
  | lbrace
  | rbrace
  | lbrack
  | rbrack
  | colon
  | comma
  | tstr (s : String)
  | tint (n : Int)
  | tfloat (f : PyFloat)
  | ttrue
  | tfalse
  | tnull
deriving DecidableEq

mutual

/-- Token stream `json.dump` emits for one value. -/
def dumpVal : PyVal → List JTok
  | .vInt n => [.tint n]
  | .vFloat f => [.tfloat f]
  | .vStr s => [.tstr s]
  | .vBool b => if b then [.ttrue] else [.tfalse]
  | .vNone => [.tnull]
  | .vList xs => .lbrack :: dumpElems xs
  | .vTuple xs => .lbrack :: dumpElems xs
  | .vDict kvs => .lbrace :: dumpMembers kvs

/-- Array elements (with separating commas) and the closing bracket. -/
def dumpElems : List PyVal → List JTok
  | [] => [.rbrack]
  | [x] => dumpVal x ++ [.rbrack]
  | x :: xs => dumpVal x ++ .comma :: dumpElems xs

/-- Object members (with separating commas) and the closing brace. -/
def dumpMembers : List (String × PyVal) → List JTok
  | [] => [.rbrace]
  | [(k, v)] => .tstr k :: .colon :: (dumpVal v ++ [.rbrace])
  | (k, v) :: kvs => .tstr k :: .colon :: (dumpVal v ++ .comma :: dumpMembers kvs)

end

/-- `json.dump(db)`: the serialized object, as tokens. -/
def json_dumps (db : Db) : List JTok :=
  .lbrace :: dumpMembers db

mutual

/-- Recursive-descent JSON value parser (fuel-bounded; arrays come back
as Python lists, objects as dicts; the look-ahead after an opening
bracket recognises the empty array/object). -/
def parseVal : Nat → List JTok → Option (PyVal × List JTok)
  | 0, _ => none
  | fuel + 1, toks =>
    match toks with
    | .tint n :: r => some (.vInt n, r)
    | .tfloat f :: r => some (.vFloat f, r)
    | .tstr s :: r => some (.vStr s, r)
    | .ttrue :: r => some (.vBool true, r)
    | .tfalse :: r => some (.vBool false, r)
    | .tnull :: r => some (.vNone, r)
    | .lbrack :: r =>
      if r.head? = some .rbrack then some (.vList [], r.tail)
      else
        match parseElems fuel r with
        | some (xs, r2) => some (.vList xs, r2)
        | none => none
    | .lbrace :: r =>
      if r.head? = some .rbrace then some (.vDict [], r.tail)
      else
        match parseMembers fuel r with
        | some (kvs, r2) => some (.vDict kvs, r2)
        | none => none
    | _ => none

/-- One or more comma-separated array elements up to `]`. -/
def parseElems : Nat → List JTok → Option (List PyVal × List JTok)
  | 0, _ => none
  | fuel + 1, toks =>
    match parseVal fuel toks with
    | none => none
    | some (v, .comma :: r) =>
      match parseElems fuel r with
      | some (vs, r2) => some (v :: vs, r2)
      | none => none
    | some (v, .rbrack :: r) => some ([v], r)
    | some _ => none

/-- One or more comma-separated `"key": value` members up to `\x7d`. -/
def parseMembers : Nat → List JTok → Option (List (String × PyVal) × List JTok)
  | 0, _ => none
  | fuel + 1, toks =>
    match toks with
    | .tstr k :: .colon :: r =>
      match parseVal fuel r with
      | none => none
      | some (v, .comma :: r2) =>
        match parseMembers fuel r2 with
        | some (kvs, r3) => some ((k, v) :: kvs, r3)
        | none => none
      | some (v, .rbrace :: r2) => some ([(k, v)], r2)
      | some _ => none
    | _ => none

end

/-- `json.load`: parse a complete token stream (trailing tokens are a
`ValueError`, as in the source library). -/
def json_loads (toks : List JTok) : Option PyVal :=
  match parseVal (toks.length + 1) toks with
  | some (v, []) => some v
  | _ => none

mutual

/-- What survives a `json.dump`/`json.load` round trip: tuples become
lists, everything else is untouched. -/
def jnorm : PyVal → PyVal
  | .vList xs => .vList (jnormList xs)
  | .vTuple xs => .vList (jnormList xs)
  | .vDict kvs => .vDict (jnormKVs kvs)
  | .vInt n => .vInt n
  | .vFloat f => .vFloat f
  | .vStr s => .vStr s
  | .vBool b => .vBool b
  | .vNone => .vNone

/-- `jnorm` on list elements. -/
def jnormList : List PyVal → List PyVal
  | [] => []
  | x :: xs => jnorm x :: jnormList xs

/-- `jnorm` on dict values. -/
def jnormKVs : List (String × PyVal) → List (String × PyVal)
  | [] => []
  | (k, v) :: kvs => (k, jnorm v) :: jnormKVs kvs

end

mutual

/-- A value that contains no tuple anywhere (so JSON round-trips it). -/
def tuple_free : PyVal → Bool
  | .vTuple _ => false
  | .vList xs => tupleFreeList xs
  | .vDict kvs => tupleFreeKVs kvs
  | _ => true

/-- `tuple_free` on list elements. -/
def tupleFreeList : List PyVal → Bool
  | [] => true
  | x :: xs => tuple_free x && tupleFreeList xs

/-- `tuple_free` on dict values. -/
def tupleFreeKVs : List (String × PyVal) → Bool
  | [] => true
  | (_, v) :: kvs => tuple_free v && tupleFreeKVs kvs

end

/-! ## Persistence and the store state -/

/-- `KvickStore._save`: dump the whole store to a fresh temporary file,
then replace the target with it only if the temporary file is non-empty;
`save` runs this and waits for it, so it is the same function of the
state.  The backing file is `none` when absent. -/
def save_file (db : Db) (file : Option (List JTok)) : Option (List JTok) :=
  let tmp := json_dumps db
  if tmp.length ≠ 0 then some tmp else file

/-- `posixpath.dirname`: the path up to the final `/`, with trailing
slashes stripped unless the result is all slashes. -/
def pyDirname (p : String) : String :=
  let tailLen := (p.data.reverse.takeWhile fun c => c != '/').length
  let head := p.data.take (p.data.length - tailLen)
  if !head.isEmpty && head.any (fun c => c != '/') then
    ⟨(head.reverse.dropWhile fun c => c = '/').reverse⟩
  else ⟨head⟩

/-- The system default temporary directory, `tempfile.gettempdir()`
(`/tmp` on a stock POSIX system; only its independence from the target
path matters to any theorem below). -/
def tempfile_gettempdir : String := "/tmp"

/-- The directory in which `_save`'s temporary file is created:
`NamedTemporaryFile(mode="w", delete=False)` is called with no `dir`
argument, so the file goes to the default temporary directory,
wherever the target `location` lives. -/
def save_tmpfile_dir (_location : String) : String :=
  tempfile_gettempdir

/-- Outcome of a successful `json.load` at startup: the expected
string-keyed object, or some other JSON value (the source stores
whatever `json.load` returned). -/
inductive LoadOut where
  | dbOut (db : Db)
  | otherOut (v : PyVal)

/-- `KvickStore.load`/`_load`: a missing file gives an empty store; a
parse failure on an empty (zero-length) file gives an empty store; a
parse failure on a non-empty file raises `ValueError` ("Invalid JSON
format"); otherwise the parsed object becomes the store. -/
def load_file (file : Option (List JTok)) : Except PyErr LoadOut :=
  match file with
  | none => .ok (.dbOut [])
  | some toks =>
    match json_loads toks with
    | some (.vDict kvs) => .ok (.dbOut kvs)
    | some v => .ok (.otherOut v)
    | none => if toks.length = 0 then .ok (.dbOut []) else .error .valueErr

/-- The store's state: the in-memory dict, the auto-save flag, and the
content of the backing file. -/
structure KS where
  db : Db
  autoSave : Bool
  file : Option (List JTok)

/-- `KvickStore._auto_save`: persist if and only if auto-save is on. -/
def auto_save (s : KS) : KS :=
  if s.autoSave then { s with file := save_file s.db s.file } else s

/-! ## Store operations

Each method becomes a function from the state (plus arguments) to a
result and the post-state.  A raised exception is `.error`; the `False`
the source returns for an absent key is the Python value `False`
(`.vBool false`), faithfully indistinguishable from a stored `False`. -/

/-- Python `list(v)`: the element list of an iterable (characters of a
string, keys of a dict), or `none` for the `TypeError` on
non-iterables. -/
def pyListOf : PyVal → Option (List PyVal)
  | .vList xs => some xs
  | .vTuple xs => some xs
  | .vStr s => some (s.data.map fun c => .vStr ⟨[c]⟩)
  | .vDict kvs => some (kvs.map fun kv => .vStr kv.1)
  | _ => none

namespace KvickStore

/-- `KvickStore.set`. -/
def set (s : KS) (key val : PyVal) : (Except PyErr PyVal) × KS :=
  match check_key_format_error key with
  | .error e => (.error e, s)
  | .ok () =>
    (.ok .vNone, auto_save { s with db := dictSet s.db (transform_key_forward key) val })

/-- `KvickStore.get`. -/
def get (s : KS) (key : PyVal) : (Except PyErr PyVal) × KS :=
  match check_key_format_error key with
  | .error e => (.error e, s)
  | .ok () =>
    match dictGet? s.db (transform_key_forward key) with
    | some v => (.ok v, s)
    | none => (.ok (.vBool false), s)

/-- `KvickStore.rm`. -/
def rm (s : KS) (key : PyVal) : (Except PyErr PyVal) × KS :=
  match check_key_format_error key with
  | .error e => (.error e, s)
  | .ok () =>
    match dictPop s.db (transform_key_forward key) with
    | some (v, db2) => (.ok (.vTuple [key, v]), auto_save { s with db := db2 })
    | none => (.ok (.vBool false), s)

/-- `KvickStore.exists`. -/
def exists_ (s : KS) (key : PyVal) : (Except PyErr PyVal) × KS :=
  match check_key_format_error key with
  | .error e => (.error e, s)
  | .ok () => (.ok (.vBool (dictGet? s.db (transform_key_forward key)).isSome), s)

/-- `KvickStore.append`: `list(vals)` coerces the current value, raising
an uncaught `TypeError` on a non-iterable (only `KeyError` is caught). -/
def append (s : KS) (key val_to_append : PyVal) : (Except PyErr PyVal) × KS :=
  match check_key_format_error key with
  | .error e => (.error e, s)
  | .ok () =>
    match dictGet? s.db (transform_key_forward key) with
    | none => (.ok (.vBool false), s)
    | some vals =>
      match pyListOf vals with
      | none => (.error .typeErr, s)
      | some l =>
        let l2 := l ++ [val_to_append]
        (.ok (.vTuple [key, .vList l2]),
          auto_save { s with db := dictSet s.db (transform_key_forward key) (.vList l2) })

/-- Is the value an `int`/`float` instance (booleans included)? -/
def pyIsNum : PyVal → Bool
  | .vInt _ => true
  | .vFloat _ => true
  | .vBool _ => true
  | _ => false

/-- Stand-in for IEEE-754 float addition, which is outside this
embedding; no claim below concerns the numeric result of accumulating
with a float, so no theorem depends on this value. -/
def pyFloatAdd (_a _b : PyFloat) : PyFloat := .nan

/-- The float operand of a mixed numeric addition, coerced. -/
def toPyFloat : PyVal → PyFloat
  | .vFloat f => f
  | _ => .nan

/-- Python `+` on two numeric operands (exact on int/bool). -/
def pyNumAdd (a b : PyVal) : PyVal :=
  match a, b with
  | .vInt m, .vInt n => .vInt (m + n)
  | .vInt m, .vBool y => .vInt (m + if y then 1 else 0)
  | .vBool x, .vInt n => .vInt ((if x then 1 else 0) + n)
  | .vBool x, .vBool y => .vInt ((if x then 1 else 0) + if y then 1 else 0)
  | a, b => .vFloat (pyFloatAdd (toPyFloat a) (toPyFloat b))

/-- `KvickStore.add_to_str_or_num`: note the source rebinds `key` to its
encoded form, mutates and auto-saves, and only then decodes the key for
the return value (which can itself raise, e.g. for a `nan` key). -/
def add_to_str_or_num (s : KS) (key val_to_add : PyVal) : (Except PyErr PyVal) × KS :=
  match check_key_format_error key with
  | .error e => (.error e, s)
  | .ok () =>
    let tk := transform_key_forward key
    match dictGet? s.db tk with
    | none => (.ok (.vBool false), s)
    | some val =>
      if pyIsNum val && pyIsNum val_to_add then
        let sum := pyNumAdd val val_to_add
        let s2 := auto_save { s with db := dictSet s.db tk sum }
        match transform_key_backward tk with
        | .ok dk => (.ok (.vTuple [dk, sum]), s2)
        | .error e => (.error e, s2)
      else
        match val, val_to_add with
        | .vStr a, .vStr b =>
          let sum := PyVal.vStr (a ++ b)
          let s2 := auto_save { s with db := dictSet s.db tk sum }
          match transform_key_backward tk with
          | .ok dk => (.ok (.vTuple [dk, sum]), s2)
          | .error e => (.error e, s2)
        | _, _ => (.ok (.vBool false), s)

/-- `KvickStore.list_create`. -/
def list_create (s : KS) (key : PyVal) : (Except PyErr PyVal) × KS :=
  match check_key_format_error key with
  | .error e => (.error e, s)
  | .ok () =>
    let tk := transform_key_forward key
    match dictGet? s.db tk with
    | none => (.ok .vNone, auto_save { s with db := dictSet s.db tk (.vList []) })
    | some cur => (.ok .vNone, auto_save { s with db := dictSet s.db tk (.vList [cur]) })

/-- `KvickStore.list_add`: calls `append` and returns `None` (there is
no `return` statement in the source). -/
def list_add (s : KS) (key val : PyVal) : (Except PyErr PyVal) × KS :=
  match append s key val with
  | (.error e, s2) => (.error e, s2)
  | (.ok _, s2) => (.ok .vNone, s2)

/-- `KvickStore.list_getall`: `list(db[tk])` under a bare `except`, so
both the `KeyError` of an absent key and the `TypeError` of a
non-iterable value come back as `False`. -/
def list_getall (s : KS) (key : PyVal) : (Except PyErr PyVal) × KS :=
  match check_key_format_error key with
  | .error e => (.error e, s)
  | .ok () =>
    match dictGet? s.db (transform_key_forward key) with
    | none => (.ok (.vBool false), s)
    | some v =>
      match pyListOf v with
      | none => (.ok (.vBool false), s)
      | some xs => (.ok (.vList xs), s)

/-- `KvickStore.list_extend`: a non-iterable argument returns `False`;
the stored value is coerced with `list(...)` (uncaught `TypeError` on a
non-iterable stored value — only `KeyError` is caught). -/
def list_extend (s : KS) (key iterable_val : PyVal) : (Except PyErr PyVal) × KS :=
  match check_key_format_error key with
  | .error e => (.error e, s)
  | .ok () =>
    match pyListOf iterable_val with
    | none => (.ok (.vBool false), s)
    | some ext =>
      match dictGet? s.db (transform_key_forward key) with
      | none => (.ok (.vBool false), s)
      | some v =>
        match pyListOf v with
        | none => (.error .typeErr, s)
        | some l =>
          let l2 := l ++ ext
          (.ok (.vTuple [key, .vList l2]),
            auto_save { s with db := dictSet s.db (transform_key_forward key) (.vList l2) })

/-- `KvickStore.list_empty`. -/
def list_empty (s : KS) (key : PyVal) : (Except PyErr PyVal) × KS :=
  match check_key_format_error key with
  | .error e => (.error e, s)
  | .ok () =>
    match dictGet? s.db (transform_key_forward key) with
    | none => (.ok (.vBool false), s)
    | some v =>
      match v with
      | .vList _ =>
        (.ok (.vBool true),
          auto_save { s with db := dictSet s.db (transform_key_forward key) (.vList []) })
      | _ => (.ok (.vBool false), s)

end KvickStore

/-- Sorts a key into Python's `isinstance(key, (int, float, str, list, tuple))`
check: dicts and `None` are the (representable) invalid key types;
booleans pass, being `int` instances. -/
def is_valid_key_type : PyVal → Bool
  | .vDict _ => false
  | .vNone => false
  | _ => true

example : pyIntStr 120 = "120" := rfl
example : pyIntStr (-31) = "-31" := rfl
example : pyRepr (.vTuple [.vInt 1, .vInt 2]) = "(1, 2)" := rfl
example : pyRepr (.vTuple [.vInt 1]) = "(1,)" := rfl
example : pyRepr (.vList [.vStr "a", .vInt 2]) = "[" ++ "'a', 2" ++ "]" := rfl
example : transform_key_forward (.vInt (-7)) = "~num~-7" := rfl
example : transform_key_forward (.vFloat .nan) = "~num~nan" := rfl
example : transform_key_backward "~num~-7" = .ok (.vInt (-7)) := rfl
example : transform_key_backward "~num~2.5" = .ok (.vFloat (.finite "2.5")) := rfl
example : transform_key_backward "~num~nan" = .error .valueErr := rfl
example : transform_key_backward "(1, 2)" = .ok (.vTuple [.vStr "1", .vStr "2"]) := rfl
example : transform_key_backward "hello" = .ok (.vStr "hello") := rfl

/-! ## Decimal text round-trips -/

theorem digitChar_isDigit (n : Nat) : (digitChar n).isDigit = true := by
  unfold digitChar
  split_ifs <;> decide

theorem digitChar_val (n : Nat) (h : n < 10) : (digitChar n).toNat - 48 = n := by
  unfold digitChar
  split_ifs with h0 h1 h2 h3 h4 h5 h6 h7 h8
  · subst h0; decide
  · subst h1; decide
  · subst h2; decide
  · subst h3; decide
  · subst h4; decide
  · subst h5; decide
  · subst h6; decide
  · subst h7; decide
  · subst h8; decide
  · have h9 : n = 9 := by omega
    subst h9; decide

theorem natChars_ne_nil (fuel n : Nat) (h : 0 < fuel) : natChars fuel n ≠ [] := by
  cases fuel with
  | zero => omega
  | succ f =>
    unfold natChars
    split <;> simp

theorem natChars_all_digits (fuel : Nat) : ∀ n, (natChars fuel n).all Char.isDigit = true := by
  induction fuel with
  | zero => intro n; rfl
  | succ f ih =>
    intro n
    unfold natChars
    split
    · simp [digitChar_isDigit]
    · simp [List.all_append, ih, digitChar_isDigit]

theorem parseNatAcc_append (l1 l2 : List Char) :
    ∀ acc, parseNatAcc (l1 ++ l2) acc = parseNatAcc l2 (parseNatAcc l1 acc) := by
  induction l1 with
  | nil => intro acc; rfl
  | cons c cs ih => intro acc; simp [parseNatAcc, ih]

theorem parseNatAcc_natChars (fuel : Nat) :
    ∀ n, n < fuel → ∀ acc,
      parseNatAcc (natChars fuel n) acc = acc * 10 ^ (natChars fuel n).length + n := by
  induction fuel with
  | zero => intro n h; omega
  | succ f ih =>
    intro n h acc
    unfold natChars
    by_cases h10 : n < 10
    · simp [h10, parseNatAcc, digitChar_val n h10]
    · have hdiv : n / 10 < f := by omega
      have hmod : n % 10 < 10 := Nat.mod_lt _ (by omega)
      simp only [h10, if_false, parseNatAcc_append, List.length_append]
      rw [ih (n / 10) hdiv acc]
      simp only [parseNatAcc, digitChar_val _ hmod, List.length_singleton]
      rw [pow_succ, Nat.add_mul, ← Nat.mul_assoc]
      set A := acc * 10 ^ (natChars f (n / 10)).length
      omega

theorem parseNatAcc_natChars_zero (n : Nat) : parseNatAcc (natChars (n + 1) n) 0 = n := by
  rw [parseNatAcc_natChars (n + 1) n (by omega) 0]
  simp

theorem natChars_head_digit (n : Nat) :
    ∃ c cs, natChars (n + 1) n = c :: cs ∧ c.isDigit = true ∧ c ≠ '-' := by
  cases h : natChars (n + 1) n with
  | nil => exact absurd h (natChars_ne_nil _ _ (by omega))
  | cons c cs =>
    have hall := natChars_all_digits (n + 1) n
    rw [h] at hall
    simp only [List.all_cons, Bool.and_eq_true] at hall
    refine ⟨c, cs, ?_, ?_, ?_⟩
    · rfl
    · exact hall.1
    · intro hc
      rw [hc] at hall
      exact absurd hall.1 (by decide)

theorem isIntLit_natChars (n : Nat) : isIntLitChars (natChars (n + 1) n) = true := by
  obtain ⟨c, cs, hcons, hdig, hne⟩ := natChars_head_digit n
  have hall := natChars_all_digits (n + 1) n
  rw [hcons] at hall ⊢
  simp only [isIntLitChars, if_neg hne]
  exact hall

theorem isIntLit_neg_natChars (n : Nat) : isIntLitChars ('-' :: natChars (n + 1) n) = true := by
  simp only [isIntLitChars, if_pos rfl, if_true]
  simp [natChars_ne_nil (n + 1) n (by omega), natChars_all_digits (n + 1) n]

theorem parseIntChars_natChars (n : Nat) : parseIntChars (natChars (n + 1) n) = (n : Int) := by
  obtain ⟨c, cs, hcons, hdig, hne⟩ := natChars_head_digit n
  unfold parseIntChars
  rw [hcons]
  have : ¬((c :: cs).head? = some '-') := by
    simp only [List.head?_cons, Option.some.injEq]
    exact hne
  rw [if_neg this, ← hcons, parseNatAcc_natChars_zero]

theorem parseIntChars_neg_natChars (n : Nat) :
    parseIntChars ('-' :: natChars (n + 1) n) = -(n : Int) := by
  unfold parseIntChars
  simp [parseNatAcc_natChars_zero]

/-! ## `literal_eval` on number literals -/

theorem intLit_ne_words (l : List Char) (h : isIntLitChars l = true) :
    l ≠ "True".data ∧ l ≠ "False".data ∧ l ≠ "None".data := by
  refine ⟨?_, ?_, ?_⟩ <;> (rintro rfl; revert h; decide)

theorem floatLit_ne_words (l : List Char) (h : isFloatLitChars l = true) :
    l ≠ "True".data ∧ l ≠ "False".data ∧ l ≠ "None".data := by
  refine ⟨?_, ?_, ?_⟩ <;> (rintro rfl; revert h; decide)

theorem floatLit_not_int (l : List Char) (h : isFloatLitChars l = true) :
    isIntLitChars l = false := by
  cases hint : isIntLitChars l with
  | false => rfl
  | true =>
    exfalso
    cases l with
    | nil => exact absurd hint (by decide)
    | cons c cs =>
      by_cases hc : c = '-'
      · subst hc
        simp only [isIntLitChars, if_pos rfl, if_true] at hint
        have hne : cs ≠ [] := by
          intro hnil
          subst hnil
          simp at hint
        have hall : ∀ x ∈ cs, Char.isDigit x = true := by
          rcases cs with _ | ⟨a, as⟩
          · simp at hne
          · simpa [List.all_eq_true] using hint
        have hdrop : cs.dropWhile Char.isDigit = [] := List.dropWhile_eq_nil_iff.mpr hall
        have htake : cs.takeWhile Char.isDigit = cs := List.takeWhile_eq_self_iff.mpr hall
        simp only [isFloatLitChars, List.head?_cons, List.tail_cons, if_true] at h
        simp only [hdrop, htake] at h
        rw [if_neg hne] at h
        exact absurd h (by decide)
      · have hall : ∀ x ∈ c :: cs, Char.isDigit x = true := by
          simp only [isIntLitChars, if_neg hc] at hint
          simpa [List.all_eq_true] using hint
        have hdrop : (c :: cs).dropWhile Char.isDigit = [] := List.dropWhile_eq_nil_iff.mpr hall
        have htake : (c :: cs).takeWhile Char.isDigit = c :: cs := List.takeWhile_eq_self_iff.mpr hall
        have hsome : ¬(some c = some '-') := by simpa using hc
        simp only [isFloatLitChars, List.head?_cons] at h
        rw [if_neg hsome] at h
        simp only [hdrop, htake] at h
        rw [if_neg (by simp : ¬(c :: cs = []))] at h
        exact absurd h (by decide)

theorem literalEval_intLit (l : List Char) (h : isIntLitChars l = true) :
    literalEvalChars l = .ok (.vInt (parseIntChars l)) := by
  obtain ⟨h1, h2, h3⟩ := intLit_ne_words l h
  simp [literalEvalChars, h1, h2, h3, h]

theorem literalEval_floatLit (l : List Char) (h : isFloatLitChars l = true) :
    literalEvalChars l = .ok (.vFloat (.finite ⟨l⟩)) := by
  obtain ⟨h1, h2, h3⟩ := floatLit_ne_words l h
  simp [literalEvalChars, h1, h2, h3, floatLit_not_int l h, h]

/-! ## The key codec round trip -/

theorem transform_key_backward_num (t : String) :
    transform_key_backward ("~num~" ++ t) = literal_eval t := by
  have hpre : pyStartsWith ("~num~" ++ t) "~num~" = true := by
    unfold pyStartsWith
    rw [String.data_append, List.isPrefixOf_iff_prefix]
    exact List.prefix_append _ _
  have hdrop : pyDropStr ("~num~" ++ t) 5 = t := by
    unfold pyDropStr
    rw [String.data_append]
    have h5 : ("~num~".data).length = 5 := rfl
    rw [← h5, List.drop_left]
  unfold transform_key_backward
  rw [if_pos hpre, hdrop]

theorem pyIntStr_data_nonneg (i : Int) (h : 0 ≤ i) :
    (pyIntStr i).data = natChars (i.natAbs + 1) i.natAbs := by
  unfold pyIntStr
  rw [if_neg (by omega)]
  rfl

theorem pyIntStr_data_neg (i : Int) (h : i < 0) :
    (pyIntStr i).data = '-' :: natChars (i.natAbs + 1) i.natAbs := by
  unfold pyIntStr
  rw [if_pos h, String.data_append]
  rfl

theorem decode_encode_int (n : Int) :
    transform_key_backward (transform_key_forward (.vInt n)) = .ok (.vInt n) := by
  rw [show transform_key_forward (.vInt n) = "~num~" ++ pyIntStr n from rfl,
    transform_key_backward_num]
  unfold literal_eval
  rcases lt_or_ge n 0 with hneg | hpos
  · rw [pyIntStr_data_neg n hneg, literalEval_intLit _ (isIntLit_neg_natChars _),
      parseIntChars_neg_natChars]
    congr 2
    omega
  · rw [pyIntStr_data_nonneg n hpos, literalEval_intLit _ (isIntLit_natChars _),
      parseIntChars_natChars]
    congr 2
    omega

theorem decode_encode_finite_float (r : String) (h : isFloatLitChars r.data = true) :
    transform_key_backward (transform_key_forward (.vFloat (.finite r))) = .ok (.vFloat (.finite r)) := by
  rw [show transform_key_forward (.vFloat (.finite r)) = "~num~" ++ r from rfl,
    transform_key_backward_num]
  unfold literal_eval
  rw [literalEval_floatLit _ h]

theorem dumpVal_head (v : PyVal) :
    ∃ t ts, dumpVal v = t :: ts ∧ t ≠ .rbrack ∧ t ≠ .rbrace ∧ t ≠ .comma ∧ t ≠ .colon := by
  cases v with
  | vBool b => cases b <;> exact ⟨_, _, rfl, by simp, by simp, by simp, by simp⟩
  | vInt n => exact ⟨_, _, rfl, by simp, by simp, by simp, by simp⟩
  | vFloat f => exact ⟨_, _, rfl, by simp, by simp, by simp, by simp⟩
  | vStr s => exact ⟨_, _, rfl, by simp, by simp, by simp, by simp⟩
  | vNone => exact ⟨_, _, rfl, by simp, by simp, by simp, by simp⟩
  | vList xs => exact ⟨_, _, rfl, by simp, by simp, by simp, by simp⟩
  | vTuple xs => exact ⟨_, _, rfl, by simp, by simp, by simp, by simp⟩
  | vDict kvs => exact ⟨_, _, rfl, by simp, by simp, by simp, by simp⟩

theorem dumpElems_cons_ex (x : PyVal) (xs' : List PyVal) :
    ∃ tl, dumpElems (x :: xs') = dumpVal x ++ tl := by
  cases xs' with
  | nil => exact ⟨[.rbrack], by simp [dumpElems]⟩
  | cons y ys => exact ⟨.comma :: dumpElems (y :: ys), by simp [dumpElems]⟩

mutual

theorem parseVal_dumpVal (v : PyVal) :
    ∀ fuel rest, (dumpVal v).length ≤ fuel →
      parseVal fuel (dumpVal v ++ rest) = some (jnorm v, rest) := by
  intro fuel rest h
  cases v with
  | vInt n =>
    cases fuel with
    | zero => exact absurd h (by simp [dumpVal])
    | succ f => simp [dumpVal, parseVal, jnorm]
  | vFloat fl =>
    cases fuel with
    | zero => exact absurd h (by simp [dumpVal])
    | succ f => simp [dumpVal, parseVal, jnorm]
  | vStr s =>
    cases fuel with
    | zero => exact absurd h (by simp [dumpVal])
    | succ f => simp [dumpVal, parseVal, jnorm]
  | vBool b =>
    cases fuel with
    | zero => exact absurd h (by cases b <;> simp [dumpVal])
    | succ f => cases b <;> simp [dumpVal, parseVal, jnorm]
  | vNone =>
    cases fuel with
    | zero => exact absurd h (by simp [dumpVal])
    | succ f => simp [dumpVal, parseVal, jnorm]
  | vList xs =>
    cases fuel with
    | zero => exact absurd h (by simp [dumpVal])
    | succ f =>
      cases xs with
      | nil => simp [dumpVal, dumpElems, parseVal, jnorm, jnormList]
      | cons x xs' =>
        obtain ⟨t, ts, ht, hrk, hrb, hcm, hcl⟩ := dumpVal_head x
        obtain ⟨tl, htl⟩ := dumpElems_cons_ex x xs'
        have hlen : (dumpElems (x :: xs')).length ≤ f := by
          simp only [dumpVal, List.length_cons] at h
          omega
        have hcond : ((dumpElems (x :: xs') ++ rest).head? = some JTok.rbrack) = False := by
          rw [htl, ht]
          simp [hrk]
        simp only [dumpVal, List.cons_append, parseVal, hcond, if_false]
        rw [parseElems_dumpElems (x :: xs') (by simp) f rest hlen]
        simp [jnorm]
  | vTuple xs =>
    cases fuel with
    | zero => exact absurd h (by simp [dumpVal])
    | succ f =>
      cases xs with
      | nil => simp [dumpVal, dumpElems, parseVal, jnorm, jnormList]
      | cons x xs' =>
        obtain ⟨t, ts, ht, hrk, hrb, hcm, hcl⟩ := dumpVal_head x
        obtain ⟨tl, htl⟩ := dumpElems_cons_ex x xs'
        have hlen : (dumpElems (x :: xs')).length ≤ f := by
          simp only [dumpVal, List.length_cons] at h
          omega
        have hcond : ((dumpElems (x :: xs') ++ rest).head? = some JTok.rbrack) = False := by
          rw [htl, ht]
          simp [hrk]
        simp only [dumpVal, List.cons_append, parseVal, hcond, if_false]
        rw [parseElems_dumpElems (x :: xs') (by simp) f rest hlen]
        simp [jnorm]
  | vDict kvs =>
    cases fuel with
    | zero => exact absurd h (by simp [dumpVal])
    | succ f =>
      cases kvs with
      | nil => simp [dumpVal, dumpMembers, parseVal, jnorm, jnormKVs]
      | cons kv kvs' =>
        cases kv with
        | mk k v1 =>
        have hlen : (dumpMembers ((k, v1) :: kvs')).length ≤ f := by
          simp only [dumpVal, List.length_cons] at h
          omega
        have hcond : ((dumpMembers ((k, v1) :: kvs') ++ rest).head? = some JTok.rbrace) = False := by
          cases kvs' with
          | nil => simp [dumpMembers]
          | cons y ys => simp [dumpMembers]
        simp only [dumpVal, List.cons_append, parseVal, hcond, if_false]
        rw [parseMembers_dumpMembers ((k, v1) :: kvs') (by simp) f rest hlen]
        simp [jnorm]
termination_by sizeOf v

theorem parseElems_dumpElems (xs : List PyVal) (hne : xs ≠ []) :
    ∀ fuel rest, (dumpElems xs).length ≤ fuel →
      parseElems fuel (dumpElems xs ++ rest) = some (jnormList xs, rest) := by
  intro fuel rest h
  cases xs with
  | nil => exact absurd rfl hne
  | cons x xs' =>
    cases xs' with
    | nil =>
      cases fuel with
      | zero =>
        refine absurd h ?_
        simp only [dumpElems, List.length_append, List.length_cons, List.length_nil]
        omega
      | succ f =>
        have hlen : (dumpVal x).length ≤ f := by
          simp only [dumpElems, List.length_append, List.length_cons, List.length_nil] at h
          omega
        have harr : dumpElems [x] ++ rest = dumpVal x ++ (JTok.rbrack :: rest) := by
          simp [dumpElems]
        rw [harr]
        simp only [parseElems]
        simp [parseVal_dumpVal x f (JTok.rbrack :: rest) hlen, jnormList]
    | cons x2 xs'' =>
      cases fuel with
      | zero =>
        refine absurd h ?_
        simp only [dumpElems, List.length_append, List.length_cons]
        omega
      | succ f =>
        have hlens : (dumpElems (x :: x2 :: xs'')).length
            = (dumpVal x).length + 1 + (dumpElems (x2 :: xs'')).length := by
          simp [dumpElems]
          omega
        have hlx : (dumpVal x).length ≤ f := by omega
        have hlrest : (dumpElems (x2 :: xs'')).length ≤ f := by omega
        have harr : dumpElems (x :: x2 :: xs'') ++ rest
            = dumpVal x ++ (JTok.comma :: (dumpElems (x2 :: xs'') ++ rest)) := by
          simp [dumpElems]
        rw [harr]
        simp only [parseElems]
        simp [parseVal_dumpVal x f (JTok.comma :: (dumpElems (x2 :: xs'') ++ rest)) hlx,
          parseElems_dumpElems (x2 :: xs'') (by simp) f rest hlrest, jnormList]
termination_by sizeOf xs

theorem parseMembers_dumpMembers (kvs : List (String × PyVal)) (hne : kvs ≠ []) :
    ∀ fuel rest, (dumpMembers kvs).length ≤ fuel →
      parseMembers fuel (dumpMembers kvs ++ rest) = some (jnormKVs kvs, rest) := by
  intro fuel rest h
  cases kvs with
  | nil => exact absurd rfl hne
  | cons kv kvs' =>
    cases kv with
    | mk k v =>
    cases kvs' with
    | nil =>
      cases fuel with
      | zero =>
        refine absurd h ?_
        simp only [dumpMembers, List.length_cons, List.length_append, List.length_nil]
        omega
      | succ f =>
        have hlen : (dumpVal v).length ≤ f := by
          simp only [dumpMembers, List.length_cons, List.length_append, List.length_nil] at h
          omega
        have harr : dumpMembers [(k, v)] ++ rest
            = JTok.tstr k :: JTok.colon :: (dumpVal v ++ (JTok.rbrace :: rest)) := by
          simp [dumpMembers]
        rw [harr]
        simp only [parseMembers]
        simp [parseVal_dumpVal v f (JTok.rbrace :: rest) hlen, jnormKVs]
    | cons kv2 kvs'' =>
      cases fuel with
      | zero =>
        refine absurd h ?_
        simp only [dumpMembers, List.length_cons, List.length_append]
        omega
      | succ f =>
        have hlens : (dumpMembers ((k, v) :: kv2 :: kvs'')).length
            = (dumpVal v).length + 3 + (dumpMembers (kv2 :: kvs'')).length := by
          simp [dumpMembers]
          omega
        have hlx : (dumpVal v).length ≤ f := by omega
        have hlrest : (dumpMembers (kv2 :: kvs'')).length ≤ f := by omega
        have harr : dumpMembers ((k, v) :: kv2 :: kvs'') ++ rest
            = JTok.tstr k :: JTok.colon :: (dumpVal v ++ (JTok.comma :: (dumpMembers (kv2 :: kvs'') ++ rest))) := by
          simp [dumpMembers]
        rw [harr]
        simp only [parseMembers]
        simp [parseVal_dumpVal v f (JTok.comma :: (dumpMembers (kv2 :: kvs'') ++ rest)) hlx,
          parseMembers_dumpMembers (kv2 :: kvs'') (by simp) f rest hlrest, jnormKVs]
termination_by sizeOf kvs

end

theorem json_loads_dumps (db : Db) :
    json_loads (json_dumps db) = some (.vDict (jnormKVs db)) := by
  unfold json_loads
  rw [show json_dumps db = dumpVal (.vDict db) from rfl]
  have hp := parseVal_dumpVal (.vDict db) ((dumpVal (.vDict db)).length + 1) [] (by omega)
  rw [List.append_nil] at hp
  rw [hp]
  rfl

mutual

theorem jnorm_eq_self (v : PyVal) (h : tuple_free v = true) : jnorm v = v := by
  cases v with
  | vTuple xs => exact absurd h (by simp [tuple_free])
  | vList xs =>
    have hx : tupleFreeList xs = true := h
    rw [jnorm, jnormList_eq_self xs hx]
  | vDict kvs =>
    have hx : tupleFreeKVs kvs = true := h
    rw [jnorm, jnormKVs_eq_self kvs hx]
  | vInt n => rfl
  | vFloat f => rfl
  | vStr s => rfl
  | vBool b => rfl
  | vNone => rfl

theorem jnormList_eq_self (xs : List PyVal) (h : tupleFreeList xs = true) :
    jnormList xs = xs := by
  cases xs with
  | nil => rfl
  | cons x xs' =>
    have hx : tuple_free x = true ∧ tupleFreeList xs' = true := by
      have := h
      simp only [tupleFreeList, Bool.and_eq_true] at this
      exact this
    rw [jnormList, jnorm_eq_self x hx.1, jnormList_eq_self xs' hx.2]

theorem jnormKVs_eq_self (kvs : List (String × PyVal)) (h : tupleFreeKVs kvs = true) :
    jnormKVs kvs = kvs := by
  cases kvs with
  | nil => rfl
  | cons kv kvs' =>
    cases kv with
    | mk k v =>
      have hx : tuple_free v = true ∧ tupleFreeKVs kvs' = true := by
        have := h
        simp only [tupleFreeKVs, Bool.and_eq_true] at this
        exact this
      rw [jnormKVs, jnorm_eq_self v hx.1, jnormKVs_eq_self kvs' hx.2]

end

theorem json_dumps_ne_empty (db : Db) : (json_dumps db).length ≠ 0 := by
  simp [json_dumps]

theorem save_load_roundtrip (db : Db) (file : Option (List JTok))
    (h : tupleFreeKVs db = true) :
    load_file (save_file db file) = .ok (.dbOut db) := by
  unfold save_file
  rw [if_pos (json_dumps_ne_empty db)]
  simp only [load_file]
  rw [json_loads_dumps db, jnormKVs_eq_self db h]

/-! ## Dict lemmas -/

theorem dictGet_dictSet_self (db : Db) (k : String) (v : PyVal) :
    dictGet? (dictSet db k v) k = some v := by
  induction db with
  | nil => simp [dictSet, dictGet?]
  | cons kv rest ih =>
    by_cases hk : kv.1 = k
    · simp [dictSet, hk, dictGet?]
    · simp [dictSet, hk, dictGet?, ih]

theorem dictGet_none_of_not_mem (db : Db) (k : String) (h : k ∉ db.map Prod.fst) :
    dictGet? db k = none := by
  induction db with
  | nil => rfl
  | cons kv rest ih =>
    simp only [List.map_cons, List.mem_cons, not_or] at h
    have h1 : ¬(kv.1 = k) := fun he => h.1 he.symm
    simp [dictGet?, h1, ih h.2]

theorem dictPop_dictSet (db : Db) (k : String) (v : PyVal) :
    ∃ rest, dictPop (dictSet db k v) k = some (v, rest) := by
  induction db with
  | nil => exact ⟨[], by simp [dictSet, dictPop]⟩
  | cons kv db' ih =>
    by_cases hk : kv.1 = k
    · exact ⟨db', by simp [dictSet, hk, dictPop]⟩
    · obtain ⟨r2, hpop⟩ := ih
      exact ⟨kv :: r2, by simp [dictSet, hk, dictPop, hpop]⟩

theorem dictPop_dictSet_self (db : Db) (k : String) (v : PyVal)
    (hnd : (db.map Prod.fst).Nodup) :
    ∃ rest, dictPop (dictSet db k v) k = some (v, rest) ∧ dictGet? rest k = none := by
  induction db with
  | nil => exact ⟨[], by simp [dictSet, dictPop], rfl⟩
  | cons kv db' ih =>
    simp only [List.map_cons, List.nodup_cons] at hnd
    by_cases hk : kv.1 = k
    · refine ⟨db', by simp [dictSet, hk, dictPop], ?_⟩
      apply dictGet_none_of_not_mem
      rw [← hk]
      exact hnd.1
    · obtain ⟨r2, hpop, hget⟩ := ih hnd.2
      refine ⟨kv :: r2, ?_, ?_⟩
      · simp [dictSet, hk, dictPop, hpop]
      · simp [dictGet?, hk, hget]

/-! ## State-shape lemmas for the operations -/

theorem auto_save_db (s : KS) : (auto_save s).db = s.db := by
  unfold auto_save
  split <;> rfl

theorem check_invalid (key : PyVal) (h : is_valid_key_type key = false) :
    check_key_format_error key = .error .typeErr := by
  cases key <;> simp_all [is_valid_key_type, check_key_format_error]

theorem check_reserved (str : String) (h : pyStartsWith str "~num~" = true) :
    check_key_format_error (.vStr str) = .error .valueErr := by
  simp [check_key_format_error, h]

theorem set_err (s : KS) (key v : PyVal) (e : PyErr)
    (h : check_key_format_error key = .error e) : KvickStore.set s key v = (.error e, s) := by
  unfold KvickStore.set
  rw [h]

theorem get_err (s : KS) (key : PyVal) (e : PyErr)
    (h : check_key_format_error key = .error e) : KvickStore.get s key = (.error e, s) := by
  unfold KvickStore.get
  rw [h]

theorem rm_err (s : KS) (key : PyVal) (e : PyErr)
    (h : check_key_format_error key = .error e) : KvickStore.rm s key = (.error e, s) := by
  unfold KvickStore.rm
  rw [h]

theorem exists_err (s : KS) (key : PyVal) (e : PyErr)
    (h : check_key_format_error key = .error e) : KvickStore.exists_ s key = (.error e, s) := by
  unfold KvickStore.exists_
  rw [h]

theorem append_err (s : KS) (key v : PyVal) (e : PyErr)
    (h : check_key_format_error key = .error e) : KvickStore.append s key v = (.error e, s) := by
  unfold KvickStore.append
  rw [h]

theorem add_to_str_or_num_err (s : KS) (key v : PyVal) (e : PyErr)
    (h : check_key_format_error key = .error e) : KvickStore.add_to_str_or_num s key v = (.error e, s) := by
  unfold KvickStore.add_to_str_or_num
  rw [h]

theorem list_create_err (s : KS) (key : PyVal) (e : PyErr)
    (h : check_key_format_error key = .error e) : KvickStore.list_create s key = (.error e, s) := by
  unfold KvickStore.list_create
  rw [h]

theorem list_add_err (s : KS) (key v : PyVal) (e : PyErr)
    (h : check_key_format_error key = .error e) : KvickStore.list_add s key v = (.error e, s) := by
  unfold KvickStore.list_add
  rw [append_err s key v e h]

theorem list_getall_err (s : KS) (key : PyVal) (e : PyErr)
    (h : check_key_format_error key = .error e) : KvickStore.list_getall s key = (.error e, s) := by
  unfold KvickStore.list_getall
  rw [h]

theorem list_extend_err (s : KS) (key v : PyVal) (e : PyErr)
    (h : check_key_format_error key = .error e) : KvickStore.list_extend s key v = (.error e, s) := by
  unfold KvickStore.list_extend
  rw [h]

theorem list_empty_err (s : KS) (key : PyVal) (e : PyErr)
    (h : check_key_format_error key = .error e) : KvickStore.list_empty s key = (.error e, s) := by
  unfold KvickStore.list_empty
  rw [h]

/-- C9: keys of different declared types collide because entries are
addressed solely by the encoded string: the composite key `(1, 2)` and
the string key `"(1, 2)"` (likewise `[1, 2]` and `"[1, 2]"`) encode
identically, so after `set` with the tuple key, `get`/`exists`/`rm` with
the string key observe and affect the same entry (the last part, that
the entry is gone for the tuple key after removing it through the string
key, holds for every reachable — duplicate-free — store). -/
theorem claim_C9 :
    transform_key_forward (.vTuple [.vInt 1, .vInt 2]) = transform_key_forward (.vStr "(1, 2)")
    ∧ transform_key_forward (.vList [.vInt 1, .vInt 2]) = transform_key_forward (.vStr "[1, 2]")
    ∧ ∀ (s : KS) (v : PyVal),
        (KvickStore.get (KvickStore.set s (.vTuple [.vInt 1, .vInt 2]) v).2 (.vStr "(1, 2)")).1 = .ok v
        ∧ (KvickStore.exists_ (KvickStore.set s (.vTuple [.vInt 1, .vInt 2]) v).2 (.vStr "(1, 2)")).1 = .ok (.vBool true)
        ∧ (KvickStore.rm (KvickStore.set s (.vTuple [.vInt 1, .vInt 2]) v).2 (.vStr "(1, 2)")).1
            = .ok (.vTuple [.vStr "(1, 2)", v])
        ∧ ((s.db.map Prod.fst).Nodup →
            (KvickStore.exists_ (KvickStore.rm (KvickStore.set s (.vTuple [.vInt 1, .vInt 2]) v).2
              (.vStr "(1, 2)")).2 (.vTuple [.vInt 1, .vInt 2])).1 = .ok (.vBool false)) := by
  refine ⟨rfl, rfl, ?_⟩
  intro s v
  have hset : (KvickStore.set s (.vTuple [.vInt 1, .vInt 2]) v).2
      = auto_save { s with db := dictSet s.db "(1, 2)" v } := rfl
  have hchk2 : check_key_format_error (.vStr "(1, 2)") = .ok () := rfl
  have htk2 : transform_key_forward (.vStr "(1, 2)") = "(1, 2)" := rfl
  have hdb : (auto_save { s with db := dictSet s.db "(1, 2)" v }).db = dictSet s.db "(1, 2)" v := by
    rw [auto_save_db]
  refine ⟨?_, ?_, ?_, ?_⟩
  · rw [hset]
    unfold KvickStore.get
    rw [hchk2, htk2, hdb, dictGet_dictSet_self]
  · rw [hset]
    unfold KvickStore.exists_
    rw [hchk2, htk2, hdb, dictGet_dictSet_self]
    rfl
  · rw [hset]
    unfold KvickStore.rm
    obtain ⟨rest, hpop⟩ := dictPop_dictSet s.db "(1, 2)" v
    rw [hchk2, htk2, hdb, hpop]
  · intro hnd
    rw [hset]
    unfold KvickStore.rm
    obtain ⟨rest, hpop, hnone⟩ := dictPop_dictSet_self s.db "(1, 2)" v hnd
    rw [hchk2, htk2, hdb, hpop]
    unfold KvickStore.exists_
    rw [show check_key_format_error (.vTuple [.vInt 1, .vInt 2]) = .ok () from rfl,
      show transform_key_forward (.vTuple [.vInt 1, .vInt 2]) = "(1, 2)" from rfl,
      auto_save_db]
    show (Except.ok (PyVal.vBool (dictGet? rest "(1, 2)").isSome), _).1 = _
    rw [hnone]
    rfl

/-- C10: for every key present in the store, `list_getall` converts the
stored value element-wise with `list(...)` rather than wrapping it: a
stored string comes back as the list of its one-character strings, and a
stored non-iterable (e.g. a number) yields the `False` sentinel instead
of an error, the bare `except` having swallowed the `TypeError`. -/
theorem claim_C10 (s : KS) (key v : PyVal)
    (hchk : check_key_format_error key = .ok ())
    (hget : dictGet? s.db (transform_key_forward key) = some v) :
    ((KvickStore.list_getall s key).1
      = (match pyListOf v with
         | some xs => Except.ok (PyVal.vList xs)
         | none => Except.ok (PyVal.vBool false)))
    ∧ (∀ str : String, v = .vStr str →
        (KvickStore.list_getall s key).1
          = .ok (.vList (str.data.map fun c => PyVal.vStr ⟨[c]⟩)))
    ∧ (∀ n : Int, v = .vInt n → (KvickStore.list_getall s key).1 = .ok (.vBool false)) := by
  have hbase : (KvickStore.list_getall s key).1
      = (match pyListOf v with
         | some xs => Except.ok (PyVal.vList xs)
         | none => Except.ok (PyVal.vBool false)) := by
    unfold KvickStore.list_getall
    rw [hchk, hget]
    cases hpl : pyListOf v <;> simp [hpl]
  refine ⟨hbase, ?_, ?_⟩
  · intro str hv
    subst hv
    rw [hbase]
    rfl
  · intro n hv
    subst hv
    rw [hbase]
    rfl

/-- C8 (amended): `list_add` has exactly the store effect of `append`
and propagates its exceptions, but returns `None` whenever `append`
returns normally (the source has no `return` statement), instead of
`append`'s `(key, list)` / `False` result. -/
theorem claim_C8 (s : KS) (key val : PyVal) :
    (KvickStore.list_add s key val).2 = (KvickStore.append s key val).2
    ∧ (∀ x, (KvickStore.append s key val).1 = .ok x →
        (KvickStore.list_add s key val).1 = .ok .vNone)
    ∧ (∀ e, (KvickStore.append s key val).1 = .error e →
        (KvickStore.list_add s key val).1 = .error e) := by
  rcases happ : KvickStore.append s key val with ⟨r, s2⟩
  unfold KvickStore.list_add
  rw [happ]
  cases r with
  | ok x =>
    refine ⟨rfl, fun _ _ => rfl, fun e he => ?_⟩
    simp at he
  | error e' =>
    refine ⟨rfl, fun x hx => ?_, fun e he => ?_⟩
    · simp at hx
    · simp at he
      rw [he]

/-- C2: evaluation of the code at the failing input: on a store holding
the non-sequence value `5` under `"k"`, `append("k", 1)` raises
`TypeError` from `list(5)` and leaves the state unchanged — it does not
coerce the value to `[5]` as the claim (and the method's own docstring)
state. -/
theorem claim_C2 :
    KvickStore.append { db := [("k", .vInt 5)], autoSave := false, file := none } (.vStr "k") (.vInt 1)
      = (.error .typeErr, { db := [("k", .vInt 5)], autoSave := false, file := none }) := rfl

/-- C4: every key-accepting operation validates the key first: a key of
an unsupported type fails with `TypeError`, a string key starting with
`~num~` fails with `ValueError`, and in both cases the operation returns
with the in-memory dict and the backing file untouched (the post-state
is exactly the pre-state). -/
theorem claim_C4 (s : KS) (key arg : PyVal) :
    (is_valid_key_type key = false →
      KvickStore.set s key arg = (.error .typeErr, s)
      ∧ KvickStore.get s key = (.error .typeErr, s)
      ∧ KvickStore.rm s key = (.error .typeErr, s)
      ∧ KvickStore.exists_ s key = (.error .typeErr, s)
      ∧ KvickStore.append s key arg = (.error .typeErr, s)
      ∧ KvickStore.add_to_str_or_num s key arg = (.error .typeErr, s)
      ∧ KvickStore.list_create s key = (.error .typeErr, s)
      ∧ KvickStore.list_add s key arg = (.error .typeErr, s)
      ∧ KvickStore.list_getall s key = (.error .typeErr, s)
      ∧ KvickStore.list_extend s key arg = (.error .typeErr, s)
      ∧ KvickStore.list_empty s key = (.error .typeErr, s))
    ∧ (∀ str : String, key = .vStr str → pyStartsWith str "~num~" = true →
      KvickStore.set s key arg = (.error .valueErr, s)
      ∧ KvickStore.get s key = (.error .valueErr, s)
      ∧ KvickStore.rm s key = (.error .valueErr, s)
      ∧ KvickStore.exists_ s key = (.error .valueErr, s)
      ∧ KvickStore.append s key arg = (.error .valueErr, s)
      ∧ KvickStore.add_to_str_or_num s key arg = (.error .valueErr, s)
      ∧ KvickStore.list_create s key = (.error .valueErr, s)
      ∧ KvickStore.list_add s key arg = (.error .valueErr, s)
      ∧ KvickStore.list_getall s key = (.error .valueErr, s)
      ∧ KvickStore.list_extend s key arg = (.error .valueErr, s)
      ∧ KvickStore.list_empty s key = (.error .valueErr, s)) := by
  constructor
  · intro h
    have hc := check_invalid key h
    exact ⟨set_err _ _ _ _ hc, get_err _ _ _ hc, rm_err _ _ _ hc, exists_err _ _ _ hc,
      append_err _ _ _ _ hc, add_to_str_or_num_err _ _ _ _ hc, list_create_err _ _ _ hc,
      list_add_err _ _ _ _ hc, list_getall_err _ _ _ hc, list_extend_err _ _ _ _ hc,
      list_empty_err _ _ _ hc⟩
  · intro str hk h
    subst hk
    have hc := check_reserved str h
    exact ⟨set_err _ _ _ _ hc, get_err _ _ _ hc, rm_err _ _ _ hc, exists_err _ _ _ hc,
      append_err _ _ _ _ hc, add_to_str_or_num_err _ _ _ _ hc, list_create_err _ _ _ hc,
      list_add_err _ _ _ _ hc, list_getall_err _ _ _ hc, list_extend_err _ _ _ _ hc,
      list_empty_err _ _ _ hc⟩

/-- C1 (amended): for every string key that starts with none of
`~num~`, `(` and `[`, decoding the encoded key returns exactly the same
string.  (Strings opening with `(`/`[` instead decode to a tuple/list of
strings — see the counterexample.) -/
theorem claim_C1 (s : String) (h1 : pyStartsWith s "~num~" = false)
    (h2 : pyStartsWith s "(" = false) (h3 : pyStartsWith s "[" = false) :
    transform_key_backward (transform_key_forward (.vStr s)) = .ok (.vStr s) := by
  show transform_key_backward s = .ok (.vStr s)
  unfold transform_key_backward
  simp [h1, h2, h3]

/-- C1 witness: the round trip at the concrete key `"hello"`. -/
theorem claim_C1_witness :
    pyStartsWith "hello" "~num~" = false ∧ pyStartsWith "hello" "(" = false
    ∧ pyStartsWith "hello" "[" = false
    ∧ transform_key_backward (transform_key_forward (.vStr "hello")) = .ok (.vStr "hello") :=
  ⟨rfl, rfl, rfl, claim_C1 "hello" rfl rfl rfl⟩

/-- C1 counterexample: `"(1, 2)"` is a string key outside the reserved
prefix, yet decoding its encoding yields a tuple of strings, not the
original string (likewise `"[1, 2]"` yields a list). -/
theorem claim_C1_counterexample :
    pyStartsWith "(1, 2)" "~num~" = false
    ∧ transform_key_backward (transform_key_forward (.vStr "(1, 2)"))
        = .ok (.vTuple [.vStr "1", .vStr "2"])
    ∧ transform_key_backward (transform_key_forward (.vStr "(1, 2)")) ≠ .ok (.vStr "(1, 2)")
    ∧ transform_key_backward (transform_key_forward (.vStr "[1, 2]"))
        = .ok (.vList [.vStr "1", .vStr "2"])
    ∧ transform_key_backward (transform_key_forward (.vStr "[1, 2]")) ≠ .ok (.vStr "[1, 2]") := by
  refine ⟨rfl, rfl, ?_, rfl, ?_⟩
  · intro h
    rw [show transform_key_backward (transform_key_forward (.vStr "(1, 2)"))
        = .ok (.vTuple [.vStr "1", .vStr "2"]) from rfl] at h
    simp at h
  · intro h
    rw [show transform_key_backward (transform_key_forward (.vStr "[1, 2]"))
        = .ok (.vList [.vStr "1", .vStr "2"]) from rfl] at h
    simp at h

/-- C3 (amended): `decode(encode(k)) = k` for every integer key, and
for every finite float key whose canonical text is a float literal; the
claim's extension to all floats fails at `nan`/`inf` (see the
counterexample). -/
theorem claim_C3 :
    (∀ n : Int, transform_key_backward (transform_key_forward (.vInt n)) = .ok (.vInt n))
    ∧ (∀ r : String, isFloatLitChars r.data = true →
        transform_key_backward (transform_key_forward (.vFloat (.finite r)))
          = .ok (.vFloat (.finite r))) :=
  ⟨decode_encode_int, decode_encode_finite_float⟩

/-- C3 witness: the round trip at the integer `-12` and the float
`2.5`. -/
theorem claim_C3_witness :
    isFloatLitChars "2.5".data = true
    ∧ transform_key_backward (transform_key_forward (.vFloat (.finite "2.5")))
        = .ok (.vFloat (.finite "2.5"))
    ∧ transform_key_backward (transform_key_forward (.vInt (-12))) = .ok (.vInt (-12)) :=
  ⟨rfl, claim_C3.2 "2.5" rfl, claim_C3.1 (-12)⟩

/-- C3 counterexample: the float key `nan` encodes to `~num~nan`, whose
suffix is not a parseable literal (`nan` is a name), so decoding raises
`ValueError` instead of returning the key; likewise `inf`. -/
theorem claim_C3_counterexample :
    transform_key_forward (.vFloat .nan) = "~num~nan"
    ∧ transform_key_backward (transform_key_forward (.vFloat .nan)) = .error .valueErr
    ∧ transform_key_backward (transform_key_forward (.vFloat .nan)) ≠ .ok (.vFloat .nan)
    ∧ transform_key_backward (transform_key_forward (.vFloat .inf)) = .error .valueErr := by
  refine ⟨rfl, rfl, ?_, rfl⟩
  intro h
  rw [show transform_key_backward (transform_key_forward (.vFloat .nan))
      = .error .valueErr from rfl] at h
  simp at h

/-- C5 (amended): after a save, loading reproduces a store with the
same encoded keys and the same values for every store whose values
contain no tuples; tuple values come back as lists (see the
counterexample), which is the coercion the source's documentation
notes. -/
theorem claim_C5 (db : Db) (file : Option (List JTok)) (h : tupleFreeKVs db = true) :
    load_file (save_file db file) = .ok (.dbOut db) :=
  save_load_roundtrip db file h

/-- C5 witness: the persistence round trip at a concrete store. -/
theorem claim_C5_witness :
    tupleFreeKVs [("k", .vList [.vInt 1, .vStr "x"])] = true
    ∧ load_file (save_file [("k", .vList [.vInt 1, .vStr "x"])] none)
        = .ok (.dbOut [("k", .vList [.vInt 1, .vStr "x"])]) :=
  ⟨rfl, claim_C5 [("k", .vList [.vInt 1, .vStr "x"])] none rfl⟩

/-- C5 counterexample: a stored tuple value is not reproduced: it comes
back from the save/load round trip as a list. -/
theorem claim_C5_counterexample :
    load_file (save_file [("k", .vTuple [.vInt 1, .vInt 2])] none)
      = .ok (.dbOut [("k", .vList [.vInt 1, .vInt 2])])
    ∧ load_file (save_file [("k", .vTuple [.vInt 1, .vInt 2])] none)
      ≠ .ok (.dbOut [("k", .vTuple [.vInt 1, .vInt 2])]) := by
  refine ⟨rfl, ?_⟩
  intro h
  rw [show load_file (save_file [("k", .vTuple [.vInt 1, .vInt 2])] none)
      = .ok (.dbOut [("k", .vList [.vInt 1, .vInt 2])]) from rfl] at h
  simp at h

/-- C6 (amended): `save` serializes the whole store to a fresh
temporary file and replaces the target with the temporary file's
content exactly when that content is non-empty, leaving the target
untouched otherwise; the serialized form of a store is never empty, so
the replacement always happens.  The temporary file is created in the
system default temporary directory regardless of the target's location
(`NamedTemporaryFile` is called without `dir=`) — the claim's
same-location conjunct fails, see the counterexample. -/
theorem claim_C6 (db : Db) (file : Option (List JTok)) :
    (save_file db file = if (json_dumps db).length ≠ 0 then some (json_dumps db) else file)
    ∧ (json_dumps db).length ≠ 0
    ∧ save_file db file = some (json_dumps db)
    ∧ (∀ location : String, save_tmpfile_dir location = tempfile_gettempdir) := by
  refine ⟨rfl, json_dumps_ne_empty db, ?_, fun _ => rfl⟩
  unfold save_file
  rw [if_pos (json_dumps_ne_empty db)]

/-- C6 counterexample: for the concrete target `/data/store.db` the
temporary file is created in the default temporary directory, which is
not the target's filesystem location: the claim's "freshly created
temporary file in the same filesystem location as the target" is false
of the code. -/
theorem claim_C6_counterexample :
    save_tmpfile_dir "/data/store.db" = tempfile_gettempdir
    ∧ pyDirname "/data/store.db" = "/data"
    ∧ save_tmpfile_dir "/data/store.db" ≠ pyDirname "/data/store.db" := by
  refine ⟨rfl, rfl, ?_⟩
  intro h
  rw [show save_tmpfile_dir "/data/store.db" = "/tmp" from rfl,
    show pyDirname "/data/store.db" = "/data" from rfl] at h
  simp at h

/-- C7: loading behaves in exactly the claimed three ways: a missing
file and an empty file both give the empty store, and a non-empty file
that fails to parse raises `ValueError` (the store is not silently
replaced; `load` performs no writes). -/
theorem claim_C7 :
    load_file none = .ok (.dbOut [])
    ∧ load_file (some []) = .ok (.dbOut [])
    ∧ (∀ toks : List JTok, toks ≠ [] → json_loads toks = none →
        load_file (some toks) = .error .valueErr) := by
  refine ⟨rfl, rfl, ?_⟩
  intro toks hne hparse
  simp only [load_file]
  rw [hparse]
  rw [if_neg (by simpa using hne)]

/-- C7 witness: a concrete non-empty unparseable token stream. -/
theorem claim_C7_witness :
    ([JTok.comma] ≠ ([] : List JTok))
    ∧ json_loads [JTok.comma] = none
    ∧ load_file (some [JTok.comma]) = .error .valueErr :=
  ⟨by simp, rfl, claim_C7.2.2 [JTok.comma] (by simp) rfl⟩

/-- C8 witness: on a concrete store, `list_add` leaves the same state
as `append` but returns `None`. -/
theorem claim_C8_witness :
    (KvickStore.list_add { db := [("k", .vList [])], autoSave := false, file := none }
        (.vStr "k") (.vInt 1)).2
      = (KvickStore.append { db := [("k", .vList [])], autoSave := false, file := none }
        (.vStr "k") (.vInt 1)).2
    ∧ (KvickStore.list_add { db := [("k", .vList [])], autoSave := false, file := none }
        (.vStr "k") (.vInt 1)).1 = .ok .vNone :=
  ⟨(claim_C8 _ _ _).1,
   (claim_C8 { db := [("k", .vList [])], autoSave := false, file := none } (.vStr "k") (.vInt 1)).2.1
      (.vTuple [.vStr "k", .vList [.vInt 1]]) rfl⟩

/-- C8 counterexample: at a concrete store the two calls return
different results (`None` vs `(key, list)`), refuting the claim that
`list_add` returns the same result as `append`. -/
theorem claim_C8_counterexample :
    (KvickStore.append { db := [("k", .vList [])], autoSave := false, file := none }
        (.vStr "k") (.vInt 1)).1 = .ok (.vTuple [.vStr "k", .vList [.vInt 1]])
    ∧ (KvickStore.list_add { db := [("k", .vList [])], autoSave := false, file := none }
        (.vStr "k") (.vInt 1)).1 = .ok .vNone
    ∧ (KvickStore.list_add { db := [("k", .vList [])], autoSave := false, file := none }
        (.vStr "k") (.vInt 1)).1
      ≠ (KvickStore.append { db := [("k", .vList [])], autoSave := false, file := none }
        (.vStr "k") (.vInt 1)).1 := by
  refine ⟨rfl, rfl, ?_⟩
  intro h
  rw [show (KvickStore.list_add { db := [("k", .vList [])], autoSave := false, file := none }
        (.vStr "k") (.vInt 1)).1 = .ok .vNone from rfl,
      show (KvickStore.append { db := [("k", .vList [])], autoSave := false, file := none }
        (.vStr "k") (.vInt 1)).1 = .ok (.vTuple [.vStr "k", .vList [.vInt 1]]) from rfl] at h
  simp at h

/-- C4 witness: `set` at the invalid key `None` and at the reserved
string key `~num~x` on a concrete store. -/
theorem claim_C4_witness :
    KvickStore.set { db := [], autoSave := false, file := none } .vNone (.vInt 0)
      = (.error .typeErr, { db := [], autoSave := false, file := none })
    ∧ KvickStore.set { db := [], autoSave := false, file := none } (.vStr "~num~x") (.vInt 0)
      = (.error .valueErr, { db := [], autoSave := false, file := none })
    ∧ is_valid_key_type .vNone = false
    ∧ pyStartsWith "~num~x" "~num~" = true :=
  ⟨((claim_C4 { db := [], autoSave := false, file := none } .vNone (.vInt 0)).1 rfl).1,
   ((claim_C4 { db := [], autoSave := false, file := none } (.vStr "~num~x") (.vInt 0)).2
      "~num~x" rfl rfl).1,
   rfl, rfl⟩

/-- C9 witness: the collision at a concrete (empty, duplicate-free)
store. -/
theorem claim_C9_witness :
    (KvickStore.get (KvickStore.set { db := [], autoSave := false, file := none }
        (.vTuple [.vInt 1, .vInt 2]) (.vInt 7)).2 (.vStr "(1, 2)")).1 = .ok (.vInt 7)
    ∧ (KvickStore.exists_ (KvickStore.rm (KvickStore.set { db := [], autoSave := false, file := none }
        (.vTuple [.vInt 1, .vInt 2]) (.vInt 7)).2 (.vStr "(1, 2)")).2
        (.vTuple [.vInt 1, .vInt 2])).1 = .ok (.vBool false) :=
  ⟨(claim_C9.2.2 { db := [], autoSave := false, file := none } (.vInt 7)).1,
   (claim_C9.2.2 { db := [], autoSave := false, file := none } (.vInt 7)).2.2.2
      (by simp)⟩

/-- C10 witness: `list_getall` at a stored string (character split)
and at a stored number (`False` sentinel). -/
theorem claim_C10_witness :
    check_key_format_error (.vStr "k") = .ok ()
    ∧ dictGet? [("k", PyVal.vStr "ab")] (transform_key_forward (.vStr "k")) = some (.vStr "ab")
    ∧ (KvickStore.list_getall { db := [("k", .vStr "ab")], autoSave := false, file := none }
        (.vStr "k")).1 = .ok (.vList [.vStr "a", .vStr "b"])
    ∧ (KvickStore.list_getall { db := [("k", .vInt 5)], autoSave := false, file := none }
        (.vStr "k")).1 = .ok (.vBool false) :=
  ⟨rfl, rfl,
   (claim_C10 { db := [("k", .vStr "ab")], autoSave := false, file := none }
      (.vStr "k") (.vStr "ab") rfl rfl).2.1 "ab" rfl,
   (claim_C10 { db := [("k", .vInt 5)], autoSave := false, file := none }
      (.vStr "k") (.vInt 5) rfl rfl).2.2 5 rfl⟩
